import Mathlib

/-!
Verification development for the PulseChat core: a shallow embedding of the
database layer (apps/api/src/db.ts), the channel-membership HTTP handlers
(apps/api/src/index.ts) and the direct-room key derivation
(apps/web/app/page.tsx), together with theorems settling the specification
claims about watermarks, unread/mention counts, attachment binding, message
history ordering, edit/soft-delete authorization, reaction idempotence,
ownership gating and DM-key symmetry.

Timestamps (`TIMESTAMPTZ`) are modelled as natural numbers; `NOW()` becomes an
explicit `now` argument.  SQL `NULL` becomes `Option`.  Tables become lists of
rows; `UNIQUE` constraints are modelled by the operations themselves
(`ON CONFLICT` branches look the row up first), matching the queries in db.ts.
-/

namespace PulseChat

/-- Row of the `messages` table (interface `StoredMessage` in db.ts). -/
structure Message where
  id : Nat
  room : String
  username : String
  message : String
  created_at : Nat
  user_id : Option String
  reply_to_message_id : Option Nat
  edited_at : Option Nat
  deleted_at : Option Nat
  deleted_by : Option String
deriving DecidableEq, Repr

/-- Row of the `message_reads` table (interface `StoredReadReceipt`). -/
structure ReadReceipt where
  id : Nat
  room : String
  user_id : String
  last_read_message_id : Nat
  updated_at : Nat
deriving DecidableEq, Repr

/-- Row of the `message_attachments` table (interface `StoredMessageAttachment`). -/
structure Attachment where
  id : Nat
  message_id : Option Nat
  uploader_user_id : Option String
  url : String
  public_id : String
  mime_type : Option String
  file_size : Option Nat
  original_filename : Option String
  created_at : Nat
deriving DecidableEq, Repr

/-- Row of the `message_reactions` table (interface `StoredMessageReaction`). -/
structure Reaction where
  message_id : Nat
  user_id : String
  emoji : String
deriving DecidableEq, Repr

/-- Row of the `conversation_participants` table (channel memberships). -/
structure Participant where
  conversation_id : String
  user_id : String
  role : String
deriving DecidableEq, Repr

/-- Row of the `users` table (the fields the modelled queries read). -/
structure User where
  id : String
  email : String
  display_name : String
deriving DecidableEq, Repr

/-- The database state: one list per modelled table. -/
structure DbState where
  messages : List Message
  reads : List ReadReceipt
  reactions : List Reaction
  attachments : List Attachment
  participants : List Participant
  users : List User
deriving DecidableEq, Repr

def DbState.empty : DbState :=
  { messages := [], reads := [], reactions := [], attachments := [],
    participants := [], users := [] }

/-! ## Read watermarks (db.ts `upsertReadReceipt`) -/

/-- Key match for the `UNIQUE (room, user_id)` constraint of `message_reads`. -/
def readKeyMatch (room userId : String) (r : ReadReceipt) : Bool :=
  r.room == room && r.user_id == userId

/-- The stored watermark for a (room, user) pair, if any. -/
def lastReadOf (s : DbState) (room userId : String) : Option Nat :=
  (s.reads.find? (readKeyMatch room userId)).map (fun r => r.last_read_message_id)

/-- db.ts `upsertReadReceipt`:
`INSERT ... ON CONFLICT (room, user_id) DO UPDATE SET
 last_read_message_id = GREATEST(message_reads.last_read_message_id, EXCLUDED.last_read_message_id),
 updated_at = NOW()`.
On conflict the existing row is updated with the greatest of the stored and
incoming values; otherwise a fresh row is inserted. -/
def upsertReadReceipt (s : DbState) (room userId : String)
    (lastReadMessageId now : Nat) : DbState :=
  match s.reads.find? (readKeyMatch room userId) with
  | some _ =>
    { s with reads := s.reads.map (fun r =>
        if readKeyMatch room userId r then
          { r with last_read_message_id := max r.last_read_message_id lastReadMessageId,
                   updated_at := now }
        else r) }
  | none =>
    { s with reads := s.reads ++
        [{ id := ((s.reads.map (fun r => r.id)).foldr max 0) + 1,
           room := room, user_id := userId,
           last_read_message_id := lastReadMessageId, updated_at := now }] }

/-- Watermark read out as a number (0 when absent), used to state monotonicity. -/
def watermark (s : DbState) (room userId : String) : Nat :=
  (lastReadOf s room userId).getD 0

/-- Apply a sequence of `markRead` calls (message id, now) for one (room,user). -/
def applyMarkReads (s : DbState) (room userId : String)
    (calls : List (Nat × Nat)) : DbState :=
  calls.foldl (fun st c => upsertReadReceipt st room userId c.1 c.2) s

/-! ## Unread and mention-unread counts
(db.ts `getUnreadCountsForUser`, `getMentionUnreadCountsForUser`) -/

/-- The WHERE clause shared by both unread queries:
`(lr.last_read_message_id IS NULL OR m.id > lr.last_read_message_id)
 AND m.user_id IS DISTINCT FROM $1 AND m.deleted_at IS NULL`,
with `lr` the LEFT JOIN against the user's `message_reads` row for `m.room`
(unique by the `UNIQUE (room, user_id)` constraint). -/
def unreadMatch (s : DbState) (userId : String) (m : Message) : Bool :=
  (match lastReadOf s m.room userId with
   | none => true
   | some w => w < m.id)
  && !(m.user_id == some userId)
  && m.deleted_at == none

/-- `SELECT m.room, COUNT(*)::int ... GROUP BY m.room` over a filtered message
set: one (room, count) row per distinct room present. -/
def groupRoomCounts (ms : List Message) : List (String × Nat) :=
  ((ms.map (fun m => m.room)).dedup).map
    (fun r => (r, (ms.filter (fun m => m.room == r)).length))

/-- db.ts `getUnreadCountsForUser`: per-room counts of messages matching
`unreadMatch`, grouped by room. -/
def getUnreadCountsForUser (s : DbState) (userId : String) : List (String × Nat) :=
  groupRoomCounts (s.messages.filter (unreadMatch s userId))

/-- Case-insensitive containment of the pattern `"@" ++ name` in `body`:
models `m.message ILIKE '%' || '@' || me.display_name || '%'` for display
names containing no SQL wildcard characters. -/
def mentionMatch (body name : String) : Bool :=
  decide (List.IsInfix ((("@" ++ name).toList).map Char.toLower)
    ((body.toList).map Char.toLower))

/-- db.ts `getMentionUnreadCountsForUser`: the unread predicate narrowed by the
ILIKE mention pattern; the `JOIN me` on the user's own row yields no rows when
the user id is unknown. -/
def getMentionUnreadCountsForUser (s : DbState) (userId : String) :
    List (String × Nat) :=
  match s.users.find? (fun v => v.id == userId) with
  | none => []
  | some me =>
    groupRoomCounts (s.messages.filter
      (fun m => unreadMatch s userId m && mentionMatch m.message me.display_name))

/-- Reading one room's count out of the per-room rows (0 when no row). -/
def lookupRoomCount (rows : List (String × Nat)) (room : String) : Nat :=
  ((rows.find? (fun p => p.1 == room)).map (fun p => p.2)).getD 0

/-! ## Attachment binding (db.ts `assignAttachmentsToMessage`) -/

/-- The conditional-update guard of `assignAttachmentsToMessage`:
`id = ANY($2) AND uploader_user_id = $3 AND message_id IS NULL`. -/
def attachmentBindCond (attachmentIds : List Nat) (userId : String)
    (a : Attachment) : Bool :=
  attachmentIds.contains a.id && a.uploader_user_id == some userId
    && a.message_id == none

/-- db.ts `assignAttachmentsToMessage`: a single conditional
`UPDATE message_attachments SET message_id = $1 WHERE <attachmentBindCond>
RETURNING *`; returns the new state and the updated rows, with early return
`[]` on an empty id list. -/
def assignAttachmentsToMessage (s : DbState) (attachmentIds : List Nat)
    (messageId : Nat) (userId : String) : DbState × List Attachment :=
  if attachmentIds.isEmpty then (s, [])
  else
    ({ s with attachments := s.attachments.map (fun a =>
        if attachmentBindCond attachmentIds userId a then
          { a with message_id := some messageId }
        else a) },
     (s.attachments.filter (attachmentBindCond attachmentIds userId)).map
        (fun a => { a with message_id := some messageId }))

/-! ## Message history (db.ts `getMessagesForRoom`) -/

/-- `ORDER BY created_at DESC` as a relation on message rows. -/
def createdAtDesc (a b : Message) : Prop :=
  b.created_at ≤ a.created_at

instance : DecidableRel createdAtDesc := fun a b =>
  inferInstanceAs (Decidable (b.created_at ≤ a.created_at))

instance : IsTotal Message createdAtDesc :=
  ⟨fun a b => (Nat.le_total b.created_at a.created_at)⟩

instance : IsTrans Message createdAtDesc :=
  ⟨fun _ _ _ h1 h2 => Nat.le_trans h2 h1⟩

/-- db.ts `getMessagesForRoom`:
`SELECT ... WHERE room = $1 ORDER BY created_at DESC LIMIT $2`, then
`result.rows.reverse()` to hand the UI ascending order. -/
def getMessagesForRoom (s : DbState) (room : String) (limit : Nat) :
    List Message :=
  ((List.insertionSort createdAtDesc
      (s.messages.filter (fun m => m.room == room))).take limit).reverse

/-! ## Message edit and soft delete
(db.ts `editMessageForUser`, `softDeleteMessageForUser`) -/

/-- The shared WHERE clause of both updates: `id = <messageId> AND
user_id = <userId>` (a NULL author matches no user). -/
def msgAuthorCond (messageId : Nat) (userId : String) (m : Message) : Bool :=
  m.id == messageId && m.user_id == some userId

/-- db.ts `editMessageForUser`: `UPDATE messages SET message = $1,
edited_at = NOW() WHERE id = $2 AND user_id = $3 RETURNING *`; yields the new
state and `result.rows[0] ?? null`. -/
def editMessageForUser (s : DbState) (messageId : Nat) (userId : String)
    (newContent : String) (now : Nat) : DbState × Option Message :=
  ({ s with messages := s.messages.map (fun m =>
      if msgAuthorCond messageId userId m then
        { m with message := newContent, edited_at := some now }
      else m) },
   ((s.messages.filter (msgAuthorCond messageId userId)).map
      (fun m => { m with message := newContent, edited_at := some now })).head?)

/-- db.ts `softDeleteMessageForUser`: `UPDATE messages SET deleted_at = NOW(),
deleted_by = $1 WHERE id = $2 AND user_id = $1 RETURNING *`. -/
def softDeleteMessageForUser (s : DbState) (messageId : Nat) (userId : String)
    (now : Nat) : DbState × Option Message :=
  ({ s with messages := s.messages.map (fun m =>
      if msgAuthorCond messageId userId m then
        { m with deleted_at := some now, deleted_by := some userId }
      else m) },
   ((s.messages.filter (msgAuthorCond messageId userId)).map
      (fun m => { m with deleted_at := some now, deleted_by := some userId })).head?)

/-! ## Reactions (db.ts `addReactionForUser`, `removeReactionForUser`) -/

/-- Key of the `UNIQUE (message_id, user_id, emoji)` constraint. -/
def reactionKeyMatch (messageId : Nat) (userId emoji : String)
    (r : Reaction) : Bool :=
  r.message_id == messageId && r.user_id == userId && r.emoji == emoji

/-- db.ts `addReactionForUser`: `INSERT ... ON CONFLICT (message_id, user_id,
emoji) DO NOTHING` — insert only when no row with the key exists. -/
def addReactionForUser (s : DbState) (messageId : Nat) (userId emoji : String) :
    DbState :=
  if s.reactions.any (reactionKeyMatch messageId userId emoji) then s
  else { s with reactions := s.reactions ++
          [{ message_id := messageId, user_id := userId, emoji := emoji }] }

/-- db.ts `removeReactionForUser`: `DELETE FROM message_reactions WHERE
message_id = $1 AND user_id = $2 AND emoji = $3`. -/
def removeReactionForUser (s : DbState) (messageId : Nat)
    (userId emoji : String) : DbState :=
  { s with reactions :=
      s.reactions.filter (fun r => !(reactionKeyMatch messageId userId emoji r)) }

/-! ## Channel membership handlers (index.ts) -/

/-- db.ts `getChannelParticipantRole`: the membership row's role, if any. -/
def getChannelParticipantRole (s : DbState) (channelId userId : String) :
    Option String :=
  (s.participants.find?
      (fun p => p.conversation_id == channelId && p.user_id == userId)).map
    (fun p => p.role)

/-- db.ts `removeUserFromChannel`: `DELETE FROM conversation_participants
WHERE conversation_id = $1 AND user_id = $2`. -/
def removeUserFromChannel (s : DbState) (channelId userId : String) : DbState :=
  { s with participants := s.participants.filter (fun p =>
      !(p.conversation_id == channelId && p.user_id == userId)) }

/-- index.ts `DELETE /channels/:channelId/members/:memberId` (after the auth
middleware): self-removal is rejected with 400 before any role check; then the
caller must be owner (403), the target must be a member (404) and must not be
an owner (400); otherwise the row is deleted (204). Returns (HTTP status,
new state). -/
def removeMemberEndpoint (s : DbState) (channelId userId memberId : String) :
    Nat × DbState :=
  if memberId == userId then (400, s)
  else if !(getChannelParticipantRole s channelId userId == some "owner") then
    (403, s)
  else
    match getChannelParticipantRole s channelId memberId with
    | none => (404, s)
    | some targetRole =>
      if targetRole == "owner" then (400, s)
      else (204, removeUserFromChannel s channelId memberId)

/-- index.ts `POST /channels/:channelId/leave`: non-members get 403, owners
get 400 and no change; otherwise the caller's membership row is deleted (204). -/
def leaveEndpoint (s : DbState) (channelId userId : String) : Nat × DbState :=
  match getChannelParticipantRole s channelId userId with
  | none => (403, s)
  | some role =>
    if role == "owner" then (400, s)
    else (204, removeUserFromChannel s channelId userId)

/-! ## Direct-room key (page.tsx `getDmRoomId`) -/

/-- page.tsx `getDmRoomId`: backtick-template `dm:` ++ the two ids sorted
lexicographically and joined with `:` (JavaScript `[a, b].sort().join(":")`,
default string sort; the stable sort keeps `[a, b]` unless `b < a`). -/
def getDmRoomId (selfId friendId : String) : String :=
  "dm:" ++ (if friendId < selfId then friendId ++ ":" ++ selfId
            else selfId ++ ":" ++ friendId)

/-! ## Concrete states used in scenario conjuncts, counterexamples and
witnesses -/

/-- A message row with the fields the claims vary; remaining columns fixed. -/
def mkMsg (i : Nat) (room : String) (author : Option String) (body : String)
    (ca : Nat) : Message :=
  { id := i, room := room, username := "u", message := body, created_at := ca,
    user_id := author, reply_to_message_id := none, edited_at := none,
    deleted_at := none, deleted_by := none }

/-- Room "R" with five messages by another author; no read receipts. -/
def c1State : DbState :=
  { DbState.empty with messages :=
      [mkMsg 1 "R" (some "other") "a" 1, mkMsg 2 "R" (some "other") "b" 2,
       mkMsg 3 "R" (some "other") "c" 3, mkMsg 4 "R" (some "other") "d" 4,
       mkMsg 5 "R" (some "other") "e" 5] }

/-- Room "R" with messages 1-4 by another author and user X's watermark at 2. -/
def c2State : DbState :=
  { DbState.empty with
    messages :=
      [mkMsg 1 "R" (some "other") "a" 1, mkMsg 2 "R" (some "other") "b" 2,
       mkMsg 3 "R" (some "other") "c" 3, mkMsg 4 "R" (some "other") "d" 4],
    reads := [{ id := 1, room := "R", user_id := "X",
                last_read_message_id := 2, updated_at := 0 }] }

/-- Identities Alice and Ali, and an unread message "hello @Alice" from a
third author in room "r". -/
def c3State : DbState :=
  { DbState.empty with
    messages := [mkMsg 1 "r" (some "uc") "hello @Alice" 1],
    users := [{ id := "ua", email := "a@x", display_name := "Alice" },
              { id := "ub", email := "b@x", display_name := "Ali" }] }

/-- One pending attachment of uploader "u", one already assigned to message 9,
and one pending attachment of a different uploader. -/
def c4State : DbState :=
  { DbState.empty with attachments :=
      [{ id := 1, message_id := none, uploader_user_id := some "u",
         url := "u1", public_id := "p1", mime_type := none, file_size := none,
         original_filename := none, created_at := 0 },
       { id := 2, message_id := some 9, uploader_user_id := some "u",
         url := "u2", public_id := "p2", mime_type := none, file_size := none,
         original_filename := none, created_at := 0 },
       { id := 3, message_id := none, uploader_user_id := some "w",
         url := "u3", public_id := "p3", mime_type := none, file_size := none,
         original_filename := none, created_at := 0 }] }

/-- Room "r" where the wall-clock order disagrees with the id order: message 1
has the later timestamp. -/
def c5State : DbState :=
  { DbState.empty with messages :=
      [mkMsg 1 "r" (some "o") "x" 10, mkMsg 2 "r" (some "o") "y" 5] }

/-- Message 1 "hi" authored by user "m". -/
def c6State : DbState :=
  { DbState.empty with messages := [mkMsg 1 "eng" (some "m") "hi" 1] }

/-- Channel "ch" whose only modelled member "a" has role member; channel "ch2"
owned by "o". -/
def c8State : DbState :=
  { DbState.empty with participants :=
      [{ conversation_id := "ch", user_id := "a", role := "member" },
       { conversation_id := "ch2", user_id := "o", role := "owner" }] }

/-- A message that is already soft-deleted (deleted_at set), authored by "m". -/
def c10State : DbState :=
  { DbState.empty with messages :=
      [{ mkMsg 1 "eng" (some "m") "hi" 1 with
         deleted_at := some 3, deleted_by := some "m" }] }

/-! ## Helper lemmas -/

/-- `find?` commutes with a map that does not change the predicate's verdict. -/
theorem find?_map_pred_stable {α : Type} (p : α → Bool) (f : α → α)
    (l : List α) (h : ∀ a, p (f a) = p a) :
    (l.map f).find? p = (l.find? p).map f := by
  rw [List.find?_map]
  have hpf : (p ∘ f) = p := funext h
  rw [hpf]

/-- Reading one room out of a grouped count is counting that room's rows. -/
theorem lookupRoomCount_groupRoomCounts (ms : List Message) (room : String) :
    lookupRoomCount (groupRoomCounts ms) room
      = (ms.filter (fun m => m.room == room)).length := by
  unfold lookupRoomCount groupRoomCounts
  rw [List.find?_map]
  have hcomp : ((fun p : String × Nat => p.1 == room) ∘
      (fun r => (r, (ms.filter (fun m => m.room == r)).length)))
      = (fun r => r == room) := rfl
  rw [hcomp]
  cases hfind : ((ms.map (fun m => m.room)).dedup).find? (fun r => r == room) with
  | none =>
    have hnone := List.find?_eq_none.mp hfind
    have hempty : ms.filter (fun m => m.room == room) = [] := by
      rw [List.filter_eq_nil_iff]
      intro m hm hbeq
      have hmem : m.room ∈ (ms.map (fun m => m.room)).dedup := by
        rw [List.mem_dedup]
        exact List.mem_map.mpr ⟨m, hm, rfl⟩
      exact hnone m.room hmem hbeq
    simp [hempty]
  | some r =>
    have hr : r = room := by
      have := List.find?_some hfind
      exact beq_iff_eq.mp this
    subst hr
    simp

/-! ## C9: DM key symmetry -/

/-- C9: the direct-room key is symmetric in its two arguments, and both orders
produce `dm:` followed by the smaller id, `:`, and the larger id. -/
theorem dmKey_symmetric_c9 (a b : String) :
    getDmRoomId a b = getDmRoomId b a
    ∧ getDmRoomId a b = "dm:" ++ (min a b ++ ":" ++ max a b) := by
  have hmain : ∀ x y : String,
      getDmRoomId x y = "dm:" ++ (min x y ++ ":" ++ max x y) := by
    intro x y
    unfold getDmRoomId
    rcases lt_trichotomy x y with h | h | h
    · rw [if_neg (asymm h), min_eq_left h.le, max_eq_right h.le]
    · subst h
      rw [if_neg (lt_irrefl x), min_self, max_self]
    · rw [if_pos h, min_eq_right h.le, max_eq_left h.le]
  refine ⟨?_, hmain a b⟩
  rw [hmain a b, hmain b a, min_comm, max_comm]

/-! ## C7: reaction idempotence -/

/-- C7: adding the same reaction twice yields the same state as adding it
once, and removing an absent reaction leaves the state unchanged. -/
theorem reaction_idempotent_c7 (s : DbState) (mid : Nat) (uid emoji : String) :
    addReactionForUser (addReactionForUser s mid uid emoji) mid uid emoji
        = addReactionForUser s mid uid emoji
    ∧ (s.reactions.any (reactionKeyMatch mid uid emoji) = false →
        removeReactionForUser s mid uid emoji = s) := by
  constructor
  · cases hany : s.reactions.any (reactionKeyMatch mid uid emoji) with
    | true =>
      have h1 : addReactionForUser s mid uid emoji = s := by
        simp [addReactionForUser, hany]
      rw [h1]
      exact h1
    | false =>
      have h1 : addReactionForUser s mid uid emoji
          = { s with reactions := s.reactions ++
                [{ message_id := mid, user_id := uid, emoji := emoji }] } := by
        simp [addReactionForUser, hany]
      have h2 : ({ s with reactions := s.reactions ++
            [{ message_id := mid, user_id := uid, emoji := emoji }] } :
              DbState).reactions.any (reactionKeyMatch mid uid emoji) = true := by
        simp [List.any_append, reactionKeyMatch]
      rw [h1]
      simp [addReactionForUser, h2]
  · intro hany
    have hall := List.any_eq_false.mp hany
    unfold removeReactionForUser
    have hfil : s.reactions.filter
        (fun r => !(reactionKeyMatch mid uid emoji r)) = s.reactions := by
      rw [List.filter_eq_self]
      intro r hr
      simp [hall r hr]
    rw [hfil]

/-! ## C1: watermark monotonicity -/

/-- One `markRead` call never lowers the stored watermark. -/
theorem watermark_le_upsert (s : DbState) (room userId : String)
    (mid now : Nat) :
    watermark s room userId
      ≤ watermark (upsertReadReceipt s room userId mid now) room userId := by
  unfold upsertReadReceipt
  cases hfind : s.reads.find? (readKeyMatch room userId) with
  | none =>
    have : watermark s room userId = 0 := by
      unfold watermark lastReadOf
      rw [hfind]
      rfl
    rw [this]
    exact Nat.zero_le _
  | some rec =>
    have hstable : ∀ r : ReadReceipt,
        readKeyMatch room userId
          (if readKeyMatch room userId r then
            { r with last_read_message_id := max r.last_read_message_id mid,
                     updated_at := now }
          else r) = readKeyMatch room userId r := by
      intro r
      cases hk : readKeyMatch room userId r with
      | true => simp [hk, readKeyMatch] at *; exact hk
      | false => simp [hk]
    unfold watermark lastReadOf
    simp only []
    rw [find?_map_pred_stable _ _ _ hstable, hfind]
    have hkrec : readKeyMatch room userId rec = true := List.find?_some hfind
    simp [hkrec]

/-- No sequence of `markRead` calls lowers the stored watermark. -/
theorem watermark_le_applyMarkReads (s : DbState) (room userId : String)
    (calls : List (Nat × Nat)) :
    watermark s room userId
      ≤ watermark (applyMarkReads s room userId calls) room userId := by
  induction calls generalizing s with
  | nil => exact Nat.le_refl _
  | cons c rest ih =>
    exact Nat.le_trans (watermark_le_upsert s room userId c.1 c.2)
      (ih (upsertReadReceipt s room userId c.1 c.2))

/-- C1: for every state and every sequence of `markRead` calls on one
(room, user) pair, the stored watermark never decreases; in particular, on a
room with messages 1-5 and no prior receipt, marking 5 and then 3 leaves the
watermark at 5. -/
theorem watermark_monotonic_c1 :
    (∀ (s : DbState) (room userId : String) (calls : List (Nat × Nat)),
      watermark s room userId
        ≤ watermark (applyMarkReads s room userId calls) room userId)
    ∧ lastReadOf
        (upsertReadReceipt (upsertReadReceipt c1State "R" "X" 5 1) "R" "X" 3 2)
        "R" "X" = some 5 := by
  refine ⟨watermark_le_applyMarkReads, ?_⟩
  decide

/-- Witness for C7: removing a reaction that was never added leaves the empty
state unchanged. -/
theorem reaction_idempotent_c7_witness :
    DbState.empty.reactions.any (reactionKeyMatch 1 "u" "x") = false
    ∧ removeReactionForUser DbState.empty 1 "u" "x" = DbState.empty :=
  ⟨by decide, (reaction_idempotent_c7 DbState.empty 1 "u" "x").2 (by decide)⟩

/-! ## C2: unread-count correctness -/

/-- C2: for every state, user and room, the unread count for the room is
exactly the number of the room's messages above the user's watermark (all of
them when no watermark exists), authored by someone else and not soft-deleted;
and in the concrete scenario with messages 1-4 and watermark 2 the count is 2,
dropping to 0 after marking message 4 read. -/
theorem unread_count_correct_c2 :
    (∀ (s : DbState) (userId room : String),
      lookupRoomCount (getUnreadCountsForUser s userId) room
        = (s.messages.filter
            (fun m => m.room == room && unreadMatch s userId m)).length)
    ∧ lookupRoomCount (getUnreadCountsForUser c2State "X") "R" = 2
    ∧ lookupRoomCount
        (getUnreadCountsForUser (upsertReadReceipt c2State "R" "X" 4 9) "X")
        "R" = 0 := by
  refine ⟨?_, by decide, by decide⟩
  intro s userId room
  unfold getUnreadCountsForUser
  rw [lookupRoomCount_groupRoomCounts, List.filter_filter]

/-! ## C3: mention detection (corrected) -/

/-- Counterexample to C3 as stated: the message "hello @Alice" is counted as a
mention for the identity "ub" whose display name is "Ali", not "Alice" — the
ILIKE pattern is a case-insensitive substring match, not an exact-token
match. -/
theorem mention_exact_token_counterexample_c3 :
    lookupRoomCount (getMentionUnreadCountsForUser c3State "ub") "r" = 1
    ∧ (c3State.users.find? (fun v => v.id == "ub")).map
        (fun v => v.display_name) = some "Ali"
    ∧ ("Ali" : String) ≠ "Alice" := by
  refine ⟨by decide, by decide, by decide⟩

/-- C3 amended: the mention-unread count counts, among the messages counted by
unreadCount, those whose body contains — case-insensitively, as a substring —
the character `@` followed by the recipient's display name (0 when the user id
is unknown); in particular "hello @Alice" counts for display name "Alice" and
also for any display name that makes the pattern a substring, such as "Ali". -/
theorem mention_unread_count_c3 :
    (∀ (s : DbState) (userId room : String),
      lookupRoomCount (getMentionUnreadCountsForUser s userId) room
        = (match s.users.find? (fun v => v.id == userId) with
           | none => 0
           | some me => (s.messages.filter (fun m =>
               m.room == room && (unreadMatch s userId m
                 && mentionMatch m.message me.display_name))).length))
    ∧ lookupRoomCount (getMentionUnreadCountsForUser c3State "ua") "r" = 1
    ∧ lookupRoomCount (getMentionUnreadCountsForUser c3State "ub") "r" = 1 := by
  refine ⟨?_, by decide, by decide⟩
  intro s userId room
  unfold getMentionUnreadCountsForUser
  cases hfind : s.users.find? (fun v => v.id == userId) with
  | none => rfl
  | some me =>
    rw [lookupRoomCount_groupRoomCounts, List.filter_filter]

/-! ## C4: attachment binding -/

/-- C4: `bind` updates and returns exactly the rows in the id list, owned by
the acting uploader, and still unassigned; every row that is already assigned
— or belongs to another uploader — survives unchanged, so an attachment is
bound at most once, only by its uploader, and never re-bound. -/
theorem attachment_bind_c4 (s : DbState) (ids : List Nat) (mid : Nat)
    (uid : String) :
    (assignAttachmentsToMessage s ids mid uid).2
        = (s.attachments.filter (attachmentBindCond ids uid)).map
            (fun a => { a with message_id := some mid })
    ∧ (assignAttachmentsToMessage s ids mid uid).1.attachments
        = s.attachments.map (fun a =>
            if attachmentBindCond ids uid a then { a with message_id := some mid }
            else a)
    ∧ (∀ a, a ∈ s.attachments → attachmentBindCond ids uid a = false →
          a ∈ (assignAttachmentsToMessage s ids mid uid).1.attachments)
    ∧ (∀ a m2, a ∈ s.attachments → a.message_id = some m2 →
          a ∈ (assignAttachmentsToMessage s ids mid uid).1.attachments) := by
  have h2 : (assignAttachmentsToMessage s ids mid uid).1.attachments
      = s.attachments.map (fun a =>
          if attachmentBindCond ids uid a then { a with message_id := some mid }
          else a) := by
    cases ids with
    | nil => simp [assignAttachmentsToMessage, attachmentBindCond]
    | cons x xs => rfl
  have h3 : ∀ a, a ∈ s.attachments → attachmentBindCond ids uid a = false →
      a ∈ (assignAttachmentsToMessage s ids mid uid).1.attachments := by
    intro a ha hc
    rw [h2]
    exact List.mem_map.mpr ⟨a, ha, by simp [hc]⟩
  refine ⟨?_, h2, h3, ?_⟩
  · cases ids with
    | nil => simp [assignAttachmentsToMessage, attachmentBindCond]
    | cons x xs => rfl
  · intro a m2 ha hmsg
    apply h3 a ha
    simp [attachmentBindCond, hmsg]

/-- Witness for C4: in `c4State`, the pending attachment of another uploader
and the already-assigned attachment both survive a bind of ids 1-3 by "u". -/
theorem attachment_bind_c4_witness :
    ({ id := 3, message_id := none, uploader_user_id := some "w",
       url := "u3", public_id := "p3", mime_type := none, file_size := none,
       original_filename := none, created_at := 0 } : Attachment)
        ∈ (assignAttachmentsToMessage c4State [1, 2, 3] 7 "u").1.attachments
    ∧ ({ id := 2, message_id := some 9, uploader_user_id := some "u",
         url := "u2", public_id := "p2", mime_type := none, file_size := none,
         original_filename := none, created_at := 0 } : Attachment)
        ∈ (assignAttachmentsToMessage c4State [1, 2, 3] 7 "u").1.attachments :=
  ⟨(attachment_bind_c4 c4State [1, 2, 3] 7 "u").2.2.1 _ (by decide) (by decide),
   (attachment_bind_c4 c4State [1, 2, 3] 7 "u").2.2.2 _ 9 (by decide) rfl⟩

/-! ## C5: history ordering (corrected) -/

/-- Counterexample to C5 as stated: the query orders by `created_at`, not by
message id — with message 1 carrying the later timestamp, history returns ids
[2, 1] rather than the ascending-by-id [1, 2]. -/
theorem history_id_order_counterexample_c5 :
    (getMessagesForRoom c5State "r" 2).map (fun m => m.id) = [2, 1]
    ∧ (getMessagesForRoom c5State "r" 2).map (fun m => m.id) ≠ [1, 2] := by
  refine ⟨by decide, by decide⟩

/-- C5 amended: history returns the `limit` messages of the room that come
last in `created_at` order, in ascending `created_at` order (fetch descending
by `created_at`, take `limit`, then reverse); `created_at`, not the message
id, is the ordering authority.  The last conjunct is the selection property:
the room's messages split into the returned list and a dropped remainder, and
every dropped message is timestamped no later than every returned one. -/
theorem history_order_c5 (s : DbState) (room : String) (limit : Nat) :
    List.Sorted (fun a b : Message => a.created_at ≤ b.created_at)
        (getMessagesForRoom s room limit)
    ∧ (∀ m, m ∈ getMessagesForRoom s room limit →
        m ∈ s.messages ∧ m.room = room)
    ∧ (getMessagesForRoom s room limit).length
        = min limit ((s.messages.filter (fun m => m.room == room)).length)
    ∧ ∃ dropped : List Message,
        List.Perm (dropped ++ getMessagesForRoom s room limit)
          (s.messages.filter (fun m => m.room == room))
        ∧ ∀ d, d ∈ dropped → ∀ m, m ∈ getMessagesForRoom s room limit →
            d.created_at ≤ m.created_at := by
  have hsorted : List.Sorted createdAtDesc
      (List.insertionSort createdAtDesc
        (s.messages.filter (fun m => m.room == room))) :=
    List.sorted_insertionSort _ _
  have htake : List.Sorted createdAtDesc
      ((List.insertionSort createdAtDesc
        (s.messages.filter (fun m => m.room == room))).take limit) :=
    List.Pairwise.sublist (List.take_sublist _ _) hsorted
  refine ⟨?_, ?_, ?_, ?_⟩
  · exact List.pairwise_reverse.mpr (htake.imp (fun h => h))
  · intro m hm
    have hm1 : m ∈ (List.insertionSort createdAtDesc
        (s.messages.filter (fun m => m.room == room))).take limit :=
      List.mem_reverse.mp hm
    have hm2 : m ∈ List.insertionSort createdAtDesc
        (s.messages.filter (fun m => m.room == room)) :=
      (List.take_sublist _ _).subset hm1
    have hm3 : m ∈ s.messages.filter (fun m => m.room == room) :=
      (List.perm_insertionSort createdAtDesc _).mem_iff.mp hm2
    have hm4 := List.mem_filter.mp hm3
    exact ⟨hm4.1, beq_iff_eq.mp hm4.2⟩
  · unfold getMessagesForRoom
    rw [List.length_reverse, List.length_take,
      (List.perm_insertionSort createdAtDesc _).length_eq]
  · refine ⟨(List.insertionSort createdAtDesc
        (s.messages.filter (fun m => m.room == room))).drop limit, ?_, ?_⟩
    · have h1 : List.Perm
          ((List.insertionSort createdAtDesc
            (s.messages.filter (fun m => m.room == room))).drop limit
            ++ getMessagesForRoom s room limit)
          ((List.insertionSort createdAtDesc
            (s.messages.filter (fun m => m.room == room))).drop limit
            ++ (List.insertionSort createdAtDesc
              (s.messages.filter (fun m => m.room == room))).take limit) :=
        List.Perm.append_left _ (List.reverse_perm _)
      refine h1.trans (List.perm_append_comm.trans ?_)
      rw [List.take_append_drop]
      exact List.perm_insertionSort _ _
    · intro d hd m hm
      have hmtake : m ∈ (List.insertionSort createdAtDesc
          (s.messages.filter (fun m2 => m2.room == room))).take limit :=
        List.mem_reverse.mp hm
      exact List.Sorted.rel_of_mem_take_of_mem_drop hsorted hmtake hd

/-- Witness for C5's amended claim: the later-timestamped message 1 of
`c5State` is produced by history and belongs to room "r". -/
theorem history_order_c5_witness :
    mkMsg 1 "r" (some "o") "x" 10 ∈ c5State.messages
    ∧ (mkMsg 1 "r" (some "o") "x" 10).room = "r" :=
  (history_order_c5 c5State "r" 2).2.1 (mkMsg 1 "r" (some "o") "x" 10)
    (by decide)

/-! ## C6 and C10: edit / soft-delete authorization -/

/-- A conditional UPDATE whose guard accepts the row `m` returns at least one
row and rewrites `m` in place. -/
theorem update_hits_of_cond {p : Message → Bool} {f : Message → Message}
    {l : List Message} {m : Message} (hm : m ∈ l) (hc : p m = true) :
    ((l.filter p).map f).head?.isSome = true
    ∧ f m ∈ l.map (fun x => if p x then f x else x) := by
  constructor
  · have hmemf : m ∈ l.filter p := List.mem_filter.mpr ⟨hm, hc⟩
    have hne : (l.filter p).map f ≠ [] := by
      intro heq
      rw [List.map_eq_nil_iff] at heq
      rw [heq] at hmemf
      exact absurd hmemf (List.not_mem_nil m)
    simpa [List.head?_isSome] using hne
  · exact List.mem_map.mpr ⟨m, hm, by simp [hc]⟩

/-- C6: edit updates body and edited_at and returns the row exactly when the
actor is the stored author; with no such row (author mismatch or missing
message) it returns nothing and the state is untouched. -/
theorem edit_authorization_c6 (s : DbState) (mid : Nat) (uid c : String)
    (now : Nat) :
    ((∀ m, m ∈ s.messages → ¬(m.id = mid ∧ m.user_id = some uid)) →
        (editMessageForUser s mid uid c now).2 = none
        ∧ (editMessageForUser s mid uid c now).1 = s)
    ∧ (∀ m, m ∈ s.messages → m.id = mid → m.user_id = some uid →
        (editMessageForUser s mid uid c now).2.isSome = true
        ∧ { m with message := c, edited_at := some now }
            ∈ (editMessageForUser s mid uid c now).1.messages) := by
  constructor
  · intro h
    have hcond : ∀ m ∈ s.messages, msgAuthorCond mid uid m = false := by
      intro m hm
      have hnot := h m hm
      simp only [msgAuthorCond, Bool.and_eq_false_iff, beq_eq_false_iff_ne]
      exact not_and_or.mp hnot
    have hfil : s.messages.filter (msgAuthorCond mid uid) = [] :=
      List.filter_eq_nil_iff.mpr (fun m hm => by simp [hcond m hm])
    constructor
    · show ((s.messages.filter (msgAuthorCond mid uid)).map _).head? = none
      rw [hfil]
      rfl
    · show ({ s with messages := s.messages.map _ } : DbState) = s
      have hmap : s.messages.map (fun m =>
          if msgAuthorCond mid uid m then
            { m with message := c, edited_at := some now }
          else m) = s.messages := by
        have hstep : s.messages.map (fun m =>
            if msgAuthorCond mid uid m then
              { m with message := c, edited_at := some now }
            else m) = s.messages.map (fun a => a) :=
          List.map_congr_left (fun a ha => by simp [hcond a ha])
        rw [hstep, List.map_id']
      rw [hmap]
  · intro m hm hid huid
    have hcond : msgAuthorCond mid uid m = true := by
      simp [msgAuthorCond, hid, huid]
    exact update_hits_of_cond hm hcond

/-- Witness for C6: user "f" cannot edit the message authored by "m" — the
call returns nothing and leaves the state intact — while "m"'s own edit
returns a row. -/
theorem edit_authorization_c6_witness :
    ((editMessageForUser c6State 1 "f" "bye" 9).2 = none
      ∧ (editMessageForUser c6State 1 "f" "bye" 9).1 = c6State)
    ∧ (editMessageForUser c6State 1 "m" "hi there" 9).2.isSome = true :=
  ⟨(edit_authorization_c6 c6State 1 "f" "bye" 9).1 (by decide),
   ((edit_authorization_c6 c6State 1 "m" "hi there" 9).2
      (mkMsg 1 "eng" (some "m") "hi" 1) (by decide) rfl rfl).1⟩

/-! ## C8: ownership gating (corrected) -/

/-- Counterexample to C8 as stated: a non-owner actor who names themself as
the target gets status 400 (the self-removal guard fires before the role
check), not Forbidden 403 — though membership is indeed unchanged. -/
theorem ownership_gating_counterexample_c8 :
    getChannelParticipantRole c8State "ch" "a" = some "member"
    ∧ removeMemberEndpoint c8State "ch" "a" "a" = (400, c8State)
    ∧ (removeMemberEndpoint c8State "ch" "a" "a").1 ≠ 403 := by
  refine ⟨by decide, by decide, by decide⟩

/-- C8 amended: a non-owner's removeMember fails and leaves the state (hence
the membership set) unchanged — with Forbidden 403 when the target is someone
else, and with validation status 400 when the actor targets themself; leave by
an owner fails with 400 and leaves the state unchanged. -/
theorem ownership_gating_c8 (s : DbState) (ch actor target : String) :
    (¬ getChannelParticipantRole s ch actor = some "owner" →
        (target ≠ actor → removeMemberEndpoint s ch actor target = (403, s))
        ∧ (target = actor → removeMemberEndpoint s ch actor target = (400, s)))
    ∧ (getChannelParticipantRole s ch actor = some "owner" →
        leaveEndpoint s ch actor = (400, s)) := by
  constructor
  · intro hrole
    have h2 : (getChannelParticipantRole s ch actor == some "owner") = false :=
      beq_eq_false_iff_ne.mpr hrole
    constructor
    · intro hne
      have h1 : (target == actor) = false := beq_eq_false_iff_ne.mpr hne
      simp [removeMemberEndpoint, h1, h2]
    · intro heq
      simp [removeMemberEndpoint, heq]
  · intro hrole
    simp [leaveEndpoint, hrole]

/-- Witness for C8's amended claim: in `c8State`, member "a" removing "z" gets
403, "a" removing "a" gets 400, and owner "o" leaving "ch2" gets 400, all
leaving the state unchanged. -/
theorem ownership_gating_c8_witness :
    removeMemberEndpoint c8State "ch" "a" "z" = (403, c8State)
    ∧ removeMemberEndpoint c8State "ch" "a" "a" = (400, c8State)
    ∧ leaveEndpoint c8State "ch2" "o" = (400, c8State) :=
  ⟨((ownership_gating_c8 c8State "ch" "a" "z").1 (by decide)).1 (by decide),
   ((ownership_gating_c8 c8State "ch" "a" "a").1 (by decide)).2 rfl,
   (ownership_gating_c8 c8State "ch2" "o" "t").2 (by decide)⟩

/-! ## C10: edit and soft-delete do not require a non-deleted target -/

/-- C10: an already-soft-deleted message can still be edited by its author
(body and edited_at are rewritten and a row is returned), and a further
soft-delete by the author overwrites deleted_at/deleted_by again instead of
being rejected. -/
theorem edit_softdelete_ignore_deleted_c10 (s : DbState) (m : Message)
    (mid : Nat) (uid c : String) (now d now2 : Nat) :
    m ∈ s.messages → m.id = mid → m.user_id = some uid →
    m.deleted_at = some d →
      (editMessageForUser s mid uid c now).2.isSome = true
      ∧ { m with message := c, edited_at := some now }
          ∈ (editMessageForUser s mid uid c now).1.messages
      ∧ (softDeleteMessageForUser s mid uid now2).2.isSome = true
      ∧ { m with deleted_at := some now2, deleted_by := some uid }
          ∈ (softDeleteMessageForUser s mid uid now2).1.messages := by
  intro hm hid huid _
  have hcond : msgAuthorCond mid uid m = true := by
    simp [msgAuthorCond, hid, huid]
  have hedit := update_hits_of_cond (l := s.messages) (m := m)
    (f := fun x => { x with message := c, edited_at := some now }) hm hcond
  have hdel := update_hits_of_cond (l := s.messages) (m := m)
    (f := fun x => { x with deleted_at := some now2, deleted_by := some uid })
    hm hcond
  exact ⟨hedit.1, hedit.2, hdel.1, hdel.2⟩

/-- Witness for C10: the already-deleted message of `c10State` is edited and
re-soft-deleted by its author "m"; both calls return a row. -/
theorem edit_softdelete_ignore_deleted_c10_witness :
    (editMessageForUser c10State 1 "m" "hi again" 9).2.isSome = true
    ∧ (softDeleteMessageForUser c10State 1 "m" 11).2.isSome = true :=
  have h := edit_softdelete_ignore_deleted_c10 c10State
    ({ mkMsg 1 "eng" (some "m") "hi" 1 with
       deleted_at := some 3, deleted_by := some "m" })
    1 "m" "hi again" 9 3 11 (by decide) rfl rfl rfl
  ⟨h.1, h.2.2.1⟩

end PulseChat
